import Mathlib

/-!
# The clang-gc-tool plugin driver (`hphp/tools/clang-gc-tool/plugin.cpp`)

A shallow embedding of `AddScanMethodsAction` (argument parsing and the
construction of the five white lists) and of
`AddScanMethodsConsumer::HandleTranslationUnit`, and of the factory methods
of `php7::Unit` (`hphp/php7/unit.h`), followed by the properties established
about them.

* `std::set<std::string>` is a `Finset String`; `insert` is `Insert.insert`.
* `std::vector<std::string>` is a `List String`; an iterator into it is the
  suffix of the list that starts at the iterator.
* the members of `AddScanMethodsAction` are the fields of `Action`.
-/

namespace HPHP

/-! ## `AddScanMethodsAction` -/

/-- The data members of `AddScanMethodsAction` (plugin.cpp, lines 489-495). -/
structure Action where
  m_verbose : Bool
  m_outdir : String
  m_needsScanMethodNames : Finset String
  m_gcContainerNames : Finset String
  m_hasScanMethodNames : Finset String
  m_ignoredNames : Finset String
  m_badContainerNames : Finset String
  deriving DecidableEq

/-- A freshly constructed action: `m_verbose{false}`, a default-constructed
(empty) `m_outdir`, and five default-constructed (empty) sets. -/
def Action.init : Action :=
  { m_verbose := false
    m_outdir := ""
    m_needsScanMethodNames := ∅
    m_gcContainerNames := ∅
    m_hasScanMethodNames := ∅
    m_ignoredNames := ∅
    m_badContainerNames := ∅ }

/-- The body of the `for` loop of `ParseArgs` (lines 470-480).  The first
argument is the range `[itr, args.end())`.

* `*itr == "-scan"`: `++itr`; when `itr < args.end()` still holds the element
  is inserted into `m_needsScanMethodNames`, and the loop increment steps
  over it.  When it does not hold (`-scan` was the last argument) nothing is
  inserted and the loop condition `itr < args.end()` ends the loop.
* `*itr == "-v"`: `m_verbose = true`.
* otherwise: `m_outdir = *itr`. -/
def parseLoop : List String → Action → Action
  | [], a => a
  | x :: rest, a =>
    if x = "-scan" then
      match rest with
      | [] => a
      | y :: rest2 =>
        parseLoop rest2
          { a with m_needsScanMethodNames := insert y a.m_needsScanMethodNames }
    else if x = "-v" then
      parseLoop rest { a with m_verbose := true }
    else
      parseLoop rest { a with m_outdir := x }

/-- The method `AddScanMethodsAction::ParseArgs` (lines 466-482): the returned
`bool` and the action after the call.  The `CompilerInstance` argument is
not used by the body. -/
def ParseArgs (args : List String) (a : Action) : Bool × Action :=
  (true, parseLoop args a)

/-- A run of calls `s.insert(n)` for the names `n` of a list, first to last. -/
def insertAll (names : List String) (s : Finset String) : Finset String :=
  names.foldl (fun acc n => insert n acc) s

/-- The names inserted into `m_needsScanMethodNames` by `CreateASTConsumer`
(lines 123-135), in the order of the calls.  The two insertions that are
commented out in the source (lines 138-139) are not part of the list. -/
def needsScanSeeds : List String :=
  ["HPHP::ObjectData", "HPHP::ResourceData", "HPHP::ArrayData",
   "HPHP::StringData", "HPHP::TypedValue", "HPHP::Cell", "HPHP::RefData",
   "HPHP::Array", "HPHP::String", "HPHP::Variant", "HPHP::Object",
   "HPHP::Resource", "HPHP::RequestEventHandler"]

/-- The names inserted into `m_hasScanMethodNames` after the assignment of
line 151 (lines 152-241), in the order of the calls, repeated calls included. -/
def hasScanMethodSeeds : List String :=
  ["folly::Optional", "folly::AtomicHashArray", "folly::AtomicHashMap",
   "folly::Singleton", "folly::SingletonVault",
   "folly::detail::SingletonHolder", "folly::Range", "HPHP::req::vector",
   "HPHP::req::deque", "HPHP::req::priority_queue", "HPHP::req::flat_map",
   "HPHP::req::flat_multimap", "HPHP::req::flat_set",
   "HPHP::req::flat_multiset", "HPHP::req::stack", "HPHP::req::map",
   "HPHP::req::multimap", "HPHP::req::set", "HPHP::req::multiset",
   "HPHP::req::hash_map", "HPHP::req::hash_multimap", "HPHP::req::hash_set",
   "HPHP::req::unique_ptr", "HPHP::req::ptr", "HPHP::LowPtr",
   "HPHP::TlsPodBag", "HPHP::AtomicSharedPtr", "HPHP::NameValueTable",
   "HPHP::NameValueTable::Elm", "HPHP::default_ptr", "HPHP::copy_ptr",
   "HPHP::Func", "HPHP::ExtraArgs", "HPHP::ActRec", "HPHP::Stack",
   "HPHP::Fault", "HPHP::Value", "HPHP::VarEnv", "HPHP::ApcTypedValue",
   "HPHP::ApcTypedValue::SharedData", "HPHP::MixedArray",
   "HPHP::MixedArray::Elm", "HPHP::MixedArray::ValIter",
   "HPHP::HashCollection", "HPHP::ArrayIter", "HPHP::MArrayIter",
   "HPHP::Iter", "HPHP::Iter::Data", "HPHP::TypedValueAux",
   "HPHP::hphp_hash_map", "HPHP::hphp_hash_set",
   "HPHP::c_AwaitAllWaitHandle", "HPHP::ThreadLocal",
   "HPHP::ThreadLocalNoCheck", "HPHP::ThreadLocalProxy",
   "HPHP::ThreadLocalSingleton", "HPHP::WandResource",
   "HPHP::IndexedStringMap", "HPHP::RankedCHM", "HPHP::TinyVector",
   "std::atomic", "std::pair", "std::vector", "std::map", "std::set",
   "std::vector", "std::deque", "std::priority_queue", "std::flat_map",
   "std::flat_multimap", "std::flat_set", "std::flat_multiset", "std::stack",
   "std::map", "std::multimap", "std::set", "std::multiset", "std::hash_map",
   "std::hash_multimap", "std::hash_set", "std::unique_ptr",
   "std::shared_ptr", "std::weak_ptr", "std::array",
   "tbb::concurrent_hash_map", "tbb::interface5::concurrent_hash_map",
   "boost::variant", "boost::container::flat_map",
   "boost::container::vector", "boost::container::vector::const_iterator"]

/-- The names inserted into `m_gcContainerNames` (lines 247-264), in the order
of the calls. -/
def gcContainerSeeds : List String :=
  ["HPHP::req::flat_map", "HPHP::req::flat_multimap", "HPHP::req::flat_set",
   "HPHP::req::flat_multiset", "HPHP::req::hash_map",
   "HPHP::req::hash_multimap", "HPHP::req::hash_set", "HPHP::hphp_hash_map",
   "HPHP::hphp_hash_set", "std::flat_map", "std::flat_multimap",
   "std::flat_set", "std::flat_multiset", "std::hash_map",
   "std::hash_multimap", "std::hash_set", "std::unordered_map",
   "std::unordered_set"]

/-- The names inserted into `m_ignoredNames` (lines 270-418), in the order of the
calls, repeated calls included.  The block under `#if 1` (lines 320-419) is
compiled, so its insertions are part of the list. -/
def ignoredSeeds : List String :=
  ["HPHP::Header", "HPHP::MemoryManager", "HPHP::DummyResource2",
   "HPHP::_php_ezctest_obj", "HPHP::_zend_ezc_test_globals",
   "_php_ezctest_obj", "_zend_ezc_test_globals", "HPHP::TestTransport",
   "MagickWand", "PixelWand", "DrawingWand", "PixelIterator",
   "HPHP::DnsEvent", "HPHP::GatehouseRequestEventHandler",
   "HPHP::ProxygenTransport", "HPHP::CacheClientEvent",
   "HPHP::FastCGIServer", "HPHP::FastCGIWorker", "HPHP::FastCGISession",
   "HPHP::FastCGITransport", "HPHP::SString", "HPHP::SArray",
   "HPHP::LitstrTable", "HPHP::HHBBC::StepFlags", "HPHP::HHBBC::State",
   "HPHP::HHBBC::Type", "HPHP::HHBBC::ClassInfo", "HPHP::HHBBC::NamingEnv",
   "HPHP::Unit", "HPHP::JobQueueWorker", "HPHP::ElmKey", "HPHP::jit::SSATmp",
   "HPHP::jit::Type", "HPHP::HHBBC::WorkResult", "HPHP::Eval::DebuggerProxy",
   "HPHP::PCRECache", "HPHP::jit::IRUnit", "HPHP::Compiler::EmitterVisitor",
   "HPHP::jit::BlockPusher", "HPHP::Verifier::GraphBuilder",
   "HPHP::jit::Vgen", "HPHP::jit::AsmInfo", "HPHP::jit::UseVisitor",
   "HPHP::jit::Vinstr", "HPHP::jit::SSATmp", "HPHP::jit::Type",
   "HPHP::jit::Env", "HPHP::jit::Local", "HPHP::jit::RegionFormer",
   "HPHP::jit::RegionDesc", "HPHP::jit::RegionContext",
   "HPHP::jit::irgen::CatchMaker", "HPHP::jit::MCGenerator",
   "HPHP::jit::DFS", "HPHP::jit::Global", "HPHP::jit::AliasAnalysis",
   "HPHP::VariableSerializer", "HPHP::UnitEmitter", "HPHP::PreClass",
   "HPHP::PreClassEmitter", "HPHP::FuncEmitter", "HPHP::AllClasses",
   "HPHP::ClassScope", "HPHP::SynchronizableMulti", "HPHP::QueryExpression",
   "HPHP::InvalidSetMException", "HPHP::FatalErrorException", "HPHP::Fault",
   "HPHP::LibEventTransport", "HPHP::EHEnt", "HPHP::NamedEntity",
   "HPHP::NamedEntityPairTable", "HPHP::MIterTable", "HPHP::Shape",
   "HPHP::XDebugCommand", "HPHP::XDebugProfiler",
   "HPHP::Eval::InterruptSite", "HPHP::Eval::CmdConstant",
   "HPHP::Eval::CmdExtension", "HPHP::Eval::CmdEval",
   "HPHP::Eval::CmdGlobal", "HPHP::Eval::CmdInterrupt",
   "HPHP::Eval::CmdInfo", "HPHP::Eval::CmdList", "HPHP::Eval::CmdMachine",
   "HPHP::Eval::CmdNext", "HPHP::Eval::CmdPrint", "HPHP::Eval::CmdThread",
   "HPHP::Eval::CmdVariable", "HPHP::Eval::CmdWhere",
   "HPHP::Eval::DebuggerClient", "HPHP::Eval::DebuggerCommand",
   "HPHP::Compiler::SymbolicStack::SymEntry", "HPHP::Compiler::Parser",
   "HPHP::HHBBC::RunFlags", "HPHP::HHBBC::Bytecode", "HPHP::HHBBC::ActRec",
   "HPHP::HHBBC::Index", "HPHP::HHBBC::Type", "HPHP::HHBBC::Type::Data",
   "HPHP::HHBBC::MElem", "HPHP::HHBBC::MVector", "HPHP::HHBBC::php::Class",
   "HPHP::HHBBC::php::Unit", "HPHP::HHBBC::php::Func",
   "HPHP::HHBBC::php::Local", "HPHP::HHBBC::php::Prop",
   "HPHP::HHBBC::php::Const", "HPHP::HHBBC::php::Param",
   "HPHP::HHBBC::php::Block", "HPHP::HHBBC::FuncAnalysis",
   "HPHP::HHBBC::ISS", "HPHP::HHBBC::MIS", "HPHP::HHBBC::Base",
   "HPHP::RequestInjectionData", "folly::NotificationQueue",
   "folly::FormatValue", "folly::SSLContext", "folly::EventBaseManager",
   "folly::AsyncSSLSocket", "folly::AsyncUDPServerSocket", "folly::Acceptor",
   "folly::TransportInfo", "folly::SSLCacheProvider", "folly::SSLSocket",
   "folly::Acceptor", "std::thread"]

/-- The names inserted into `m_badContainerNames` (lines 424-450), in the order
of the calls, repeated calls included. -/
def badContainerSeeds : List String :=
  ["std::vector", "std::map", "std::set", "std::vector", "std::deque",
   "std::priority_queue", "std::flat_map", "std::flat_multimap",
   "std::flat_set", "std::flat_multiset", "std::stack", "std::map",
   "std::multimap", "std::set", "std::multiset", "std::hash_map",
   "std::hash_multimap", "std::hash_set", "std::unique_ptr",
   "std::shared_ptr", "std::weak_ptr", "std::array",
   "boost::container::flat_map", "boost::container::flat_set",
   "boost::container::set", "boost::container::map",
   "boost::container::vector"]

/-- The arguments the constructor of `AddScanMethodsConsumer` receives from
`CreateASTConsumer` (lines 453-463), the clang objects apart. -/
structure ConsumerArgs where
  needsScanMethodNames : Finset String
  gcContainerNames : Finset String
  hasScanMethodNames : Finset String
  ignoredNames : Finset String
  badContainerNames : Finset String
  outdir : String
  verbose : Bool
  deriving DecidableEq

/-- The state of the action after the body of `CreateASTConsumer` has run
(lines 123-450): the seeds are inserted into `m_needsScanMethodNames`, then
`m_hasScanMethodNames` is assigned that set and receives its own names, and
the other three sets receive theirs. -/
def CreateASTConsumer.action (a : Action) : Action :=
  let needs := insertAll needsScanSeeds a.m_needsScanMethodNames
  { m_verbose := a.m_verbose
    m_outdir := a.m_outdir
    m_needsScanMethodNames := needs
    m_hasScanMethodNames := insertAll hasScanMethodSeeds needs
    m_gcContainerNames := insertAll gcContainerSeeds a.m_gcContainerNames
    m_ignoredNames := insertAll ignoredSeeds a.m_ignoredNames
    m_badContainerNames := insertAll badContainerSeeds a.m_badContainerNames }

/-- The method `AddScanMethodsAction::CreateASTConsumer` (lines 118-464): the
action after the call, and the arguments handed to the new consumer. -/
def CreateASTConsumer (a : Action) : Action × ConsumerArgs :=
  let b := CreateASTConsumer.action a
  (b, { needsScanMethodNames := b.m_needsScanMethodNames
        gcContainerNames := b.m_gcContainerNames
        hasScanMethodNames := b.m_hasScanMethodNames
        ignoredNames := b.m_ignoredNames
        badContainerNames := b.m_badContainerNames
        outdir := b.m_outdir
        verbose := b.m_verbose })

/-- What clang does with the plugin for one compilation: `ParseArgs` on a
fresh action, then `CreateASTConsumer`; the result is what the consumer is
constructed from. -/
def consumerArgsOf (args : List String) : ConsumerArgs :=
  (CreateASTConsumer (ParseArgs args Action.init).2).2

/-! ### The command line, as the usage text describes it

`PrintHelp` (lines 483-487) lists three kinds of argument: `-v`, `-scan foo`
and `dirname`.  The definitions below say, position by position, which kind
an argument is; they do not look at `parseLoop`. -/

/-- Position `i` of `args` holds the operand `foo` of a `-scan foo` option:
the argument just before it is the text `-scan` and is not itself the
operand of an earlier `-scan`. -/
def isScanOperand (args : List String) : Nat → Bool
  | 0 => false
  | i + 1 => (args[i]? == some "-scan") && !(isScanOperand args i)

/-- Position `i` of `args` holds a `dirname` argument: it is inside the list,
it is not the operand of a `-scan`, and its text is neither `-v` nor
`-scan`. -/
def isDirArg (args : List String) (i : Nat) : Bool :=
  match args[i]? with
  | none => false
  | some x => !(isScanOperand args i) && x != "-v" && x != "-scan"

/-- The operands of the `-scan` options of `args`, in order. -/
def scanOperands (args : List String) : List String :=
  (List.range args.length).filterMap
    (fun i => if isScanOperand args i then args[i]? else none)

/-- The text `o` is the last `dirname` argument of `args`, or `args` has no
`dirname` argument and `o` is `dflt`. -/
def IsLastDirArg (args : List String) (dflt o : String) : Prop :=
  (∃ i, isDirArg args i = true ∧ args[i]? = some o ∧
      ∀ j, i < j → isDirArg args j = false) ∨
    ((∀ i, isDirArg args i = false) ∧ o = dflt)

/-! ## `AddScanMethodsConsumer::HandleTranslationUnit` -/

/-- The four member-function calls in the body of `HandleTranslationUnit`
(lines 98-103). -/
inductive PassCall where
  /-- The call `m_resolveVisitor.TraverseDecl(context.getTranslationUnitDecl())`. -/
  | resolveTraverseDecl
  /-- The call `m_generator.preVisit()`. -/
  | generatorPreVisit
  /-- The call `m_generator.TraverseDecl(context.getTranslationUnitDecl())`. -/
  | generatorTraverseDecl
  /-- The call `m_generator.emitScanMethods()`. -/
  | generatorEmitScanMethods
  deriving DecidableEq, Repr

/-- The bodies of the member functions that `HandleTranslationUnit` calls.
`ResolveClassesVisitor` and `ScanGenerator` are declared in
`resolve-classes.h` and `scan-generator.h`; here each body is a function on
the state `σ` shared by the members of the consumer (the visitor, the
generator and the five `DeclSet`s), and the two traversals also receive the
translation unit `τ`. -/
structure PassBodies (σ τ : Type) where
  resolveTraverseDecl : τ → σ → σ
  preVisit : σ → σ
  generatorTraverseDecl : τ → σ → σ
  emitScanMethods : σ → σ

/-- A consumer at some point of a run: the state of its members, and the
calls it has made so far, oldest first. -/
structure Run (σ : Type) where
  state : σ
  calls : List PassCall

/-- One member-function call: the body runs to its end on the current state,
and the call is recorded. -/
def Run.call {σ : Type} (r : Run σ) (c : PassCall) (body : σ → σ) : Run σ :=
  { state := body r.state, calls := r.calls ++ [c] }

/-- The method `AddScanMethodsConsumer::HandleTranslationUnit` (lines
96-104): four calls, one after the other. -/
def HandleTranslationUnit {σ τ : Type} (p : PassBodies σ τ) (tu : τ)
    (r : Run σ) : Run σ :=
  let r1 := r.call PassCall.resolveTraverseDecl (p.resolveTraverseDecl tu)
  let r2 := r1.call PassCall.generatorPreVisit p.preVisit
  let r3 := r2.call PassCall.generatorTraverseDecl (p.generatorTraverseDecl tu)
  r3.call PassCall.generatorEmitScanMethods p.emitScanMethods

/-! ## The classification passes

The passes themselves (`ResolveClassesVisitor`, `ScanGenerator`) live in
`resolve-classes.h` and `scan-generator.h`, whose text is not part of this
development.  What follows is modelled from the specification (sections 3,
4.1, 4.3 and 4.5) and from the comments of `plugin.cpp`. -/

/-- Modelled from the spec: a node of the declaration graph (section 3,
"ResolvedType"), standing for the declarations that `ResolveClassesVisitor`
and `ScanGenerator` visit; neither class is defined in `plugin.cpp`.  A node
has a qualified name and the list of its direct bases, each base given by its
position in the graph.  Data members and template arguments are read only by
the containment rules, which enter `propagateStep` as a parameter. -/
structure ResolvedType where
  name : String
  bases : List Nat
  deriving DecidableEq, Repr

/-- Modelled from the spec: the declaration graph of one compiled module
(section 3, "TypeGraph"), the input of the absent `ResolveClassesVisitor`;
a declared type is identified by its position in the list. -/
abbrev TypeGraph := List ResolvedType

/-- Modelled from the spec: the test of the Name Resolver (section 4.1) that
the absent `ResolveClassesVisitor` applies to a declaration: node `i` exists
and its qualified name is one of the configured `names`. -/
def hasNameIn (g : TypeGraph) (names : Finset String) (i : Nat) : Bool :=
  match g[i]? with
  | some t => decide (t.name ∈ names)
  | none => false

/-- Modelled from the spec: the Name Resolver (section 4.1), in place of the
absent `ResolveClassesVisitor`: the declared types that match a configured
name.  All matches are kept; a name without a match adds nothing. -/
def resolveNames (g : TypeGraph) (names : Finset String) : Finset Nat :=
  (Finset.range g.length).filter (fun i => hasNameIn g names i = true)

/-- Modelled from the spec: the premise of the inheritance rule of the absent
`ScanGenerator` (section 4.3; plugin.cpp, lines 22-24: "Any class inheriting
from one of these classes will also be marked as needing a scan method"):
node `i` has a direct base whose `needsScan` flag is set and which is not
Ignored (section 3: an ignored type "does not propagate its own needsScan
status onward"; for an Ignored type that carries the flag this invariant is
followed).  Indirect bases are reached by iterating. -/
def derivesFromMarked (g : TypeGraph) (c : ConsumerArgs) (needsScan : Finset Nat)
    (i : Nat) : Bool :=
  match g[i]? with
  | some t =>
    t.bases.any (fun b => decide (b ∈ needsScan) && !hasNameIn g c.ignoredNames b)
  | none => false

/-- Modelled from the spec: the types the inheritance rule of the absent
`ScanGenerator` may mark (section 4.3): not an Ignored type ("unless T itself
is ignored, in which case propagation into T is suppressed") and not a
GcContainer type (its need to scan "is determined solely by" its template
arguments; "the container node itself never gains needsScan from its own
declaration"). -/
def acceptsInheritance (g : TypeGraph) (c : ConsumerArgs) (i : Nat) : Bool :=
  !hasNameIn g c.ignoredNames i && !hasNameIn g c.gcContainerNames i

/-- Modelled from the spec: one round of the Classification Propagator
(section 4.3), in place of the absent `ScanGenerator`.  A flag that is set
stays set; the inheritance rule sets the flag of every type that accepts
inheritance and has a marked direct base that is not Ignored; `containment`
stands for the types that the containment, container-delegation and
indirection rules mark in this round, given the flags so far, the
GcContainer types marked through their template arguments among them. -/
def propagateStep (containment : Finset Nat → Finset Nat) (g : TypeGraph)
    (c : ConsumerArgs) (needsScan : Finset Nat) : Finset Nat :=
  needsScan ∪
    (Finset.range g.length).filter
      (fun i => derivesFromMarked g c needsScan i = true ∧
        acceptsInheritance g c i = true) ∪
    (containment needsScan ∩ Finset.range g.length)

/-- Modelled from the spec: the fixed-point loop of the Classification
Propagator (section 4.3: "iterating until no node's flags change"), in place
of the absent `ScanGenerator`; `fuel` bounds the number of rounds. -/
def propagateLoop (step : Finset Nat → Finset Nat) : Nat → Finset Nat → Finset Nat
  | 0, s => s
  | fuel + 1, s => if step s = s then s else propagateLoop step fuel (step s)

/-- Modelled from the spec: the `needsScan` flags after the Classification
Propagator (section 4.3) of the absent `ScanGenerator` has run: the loop
starts from the types resolved from the NeedsScan names, Ignored and
GcContainer types among them, and is given
"number of nodes × number of flags" rounds, the bound of section 4.3 with
the four flags of section 3. -/
def propagate (containment : Finset Nat → Finset Nat) (g : TypeGraph)
    (c : ConsumerArgs) : Finset Nat :=
  propagateLoop (propagateStep containment g c) (g.length * 4)
    (resolveNames g c.needsScanMethodNames)

namespace php7

/-- The value of a `Unit*`: the address of a `Unit` object. -/
abbrev UnitPtr := Nat

/-- The struct `Function::Param` (lines 37-40). -/
structure Param where
  name : String
  byRef : Bool
  deriving DecidableEq, Repr

/-- The struct `Function` (lines 36-58).  `definingClass` is `none` for
`nullptr`, and otherwise the index of the class within its unit. -/
structure Function where
  name : String
  parent : UnitPtr
  definingClass : Option Nat
  params : List Param
  deriving DecidableEq, Repr

/-- The constructor `Function(Unit* parent, Class* cls = nullptr)` (lines
42-44). -/
def Function.new (parent : UnitPtr) (cls : Option Nat) : Function :=
  { name := "", parent := parent, definingClass := cls, params := [] }

/-- The struct `Class` (lines 60-89). -/
structure Class where
  parent : UnitPtr
  name : String
  parentName : Option String
  implements : List String
  traits : List String
  index : Nat
  methods : List Function
  deriving DecidableEq, Repr

/-- The constructor `Class(Unit* parent, uint32_t index)` (lines 61-63). -/
def Class.new (parent : UnitPtr) (index : Nat) : Class :=
  { parent := parent, name := "", parentName := none, implements := [],
    traits := [], index := index, methods := [] }

/-- The struct `Unit` (lines 91-117). -/
structure Unit where
  name : String
  pseudomain : Function
  functions : List Function
  classes : List Class
  deriving DecidableEq, Repr

/-- The constructor `Unit()` (lines 92-93), for the object at address
`this`. -/
def Unit.new (this : UnitPtr) : Unit :=
  { name := "", pseudomain := Function.new this none, functions := [],
    classes := [] }

/-- The method `Unit::makeFunction` (lines 99-102): the position of the new
function, which is what the returned pointer points to, and the unit after
the call. -/
def Unit.makeFunction (this : UnitPtr) (u : Unit) : Nat × Unit :=
  (u.functions.length,
    { u with functions := u.functions ++ [Function.new this none] })

/-- The method `Unit::nextClassId` (lines 104-106): `classes.size()`
converted to the return type `uint32_t`. -/
def Unit.nextClassId (u : Unit) : Nat :=
  u.classes.length % 4294967296

/-- The method `Unit::makeClass` (lines 108-111): the position of the new
class, which is what the returned pointer points to, and the unit after the
call. -/
def Unit.makeClass (this : UnitPtr) (u : Unit) : Nat × Unit :=
  (u.classes.length,
    { u with classes := u.classes ++ [Class.new this u.nextClassId] })

/-- A call of one of the two factory methods of `Unit`. -/
inductive UnitCall where
  | makeFunction
  | makeClass
  deriving DecidableEq, Repr

/-- The unit at address `this` after a sequence of calls, first to last. -/
def Unit.run (this : UnitPtr) : List UnitCall → Unit → Unit
  | [], u => u
  | UnitCall.makeFunction :: rest, u => Unit.run this rest (Unit.makeFunction this u).2
  | UnitCall.makeClass :: rest, u => Unit.run this rest (Unit.makeClass this u).2

/-- What every class of the unit at address `this` satisfies: its index is
its position reduced modulo `2^32`, and its parent is `this`. -/
def Unit.ClassesOk (this : UnitPtr) (u : Unit) : Prop :=
  ∀ (i : Nat) (c : Class), u.classes[i]? = some c → c.index = i % 4294967296 ∧ c.parent = this

end php7

/-! ## Lemmas on the command line -/

theorem insertAll_eq (names : List String) (s : Finset String) :
    insertAll names s = s ∪ names.toFinset := by
  unfold insertAll
  induction names generalizing s with
  | nil => simp
  | cons n rest ih =>
    simp only [List.foldl_cons, List.toFinset_cons, ih]
    ext x
    simp only [Finset.mem_union, Finset.mem_insert, List.mem_toFinset]
    tauto

theorem parseLoop_scan_last (a : Action) : parseLoop ["-scan"] a = a := by
  rw [parseLoop, if_pos rfl]

theorem parseLoop_scan (y : String) (rest : List String) (a : Action) :
    parseLoop ("-scan" :: y :: rest) a =
      parseLoop rest
        { a with m_needsScanMethodNames := insert y a.m_needsScanMethodNames } := by
  rw [parseLoop, if_pos rfl]

theorem parseLoop_v (rest : List String) (a : Action) :
    parseLoop ("-v" :: rest) a = parseLoop rest { a with m_verbose := true } := by
  cases rest <;> simp [parseLoop]

theorem parseLoop_dir {x : String} (rest : List String) (a : Action)
    (h1 : x ≠ "-scan") (h2 : x ≠ "-v") :
    parseLoop (x :: rest) a = parseLoop rest { a with m_outdir := x } := by
  cases rest <;> simp [parseLoop, h1, h2]

theorem isScanOperand_cons_of_ne {x : String} (rest : List String)
    (hx : x ≠ "-scan") (i : Nat) :
    isScanOperand (x :: rest) (i + 1) = isScanOperand rest i := by
  induction i with
  | zero => simp [isScanOperand, hx]
  | succ i ih => rw [isScanOperand, ih]; cases i <;> simp [isScanOperand]

theorem isScanOperand_scan_one (rest : List String) :
    isScanOperand ("-scan" :: rest) 1 = true := by
  simp [isScanOperand]

theorem isScanOperand_scan_cons (y : String) (rest : List String) (i : Nat) :
    isScanOperand ("-scan" :: y :: rest) (i + 2) = isScanOperand rest i := by
  induction i with
  | zero => simp [isScanOperand]
  | succ i ih => rw [isScanOperand, ih]; cases i <;> simp [isScanOperand]

/-- Positions of `x :: rest`, for `x` other than `-scan`: the head, which is
no operand, and the positions of `rest`, with their kind unchanged. -/
theorem exists_pos_cons_of_ne (P : Bool → Option String → Prop) {x : String}
    (rest : List String) (hx : x ≠ "-scan") :
    (∃ i, P (isScanOperand (x :: rest) i) (x :: rest)[i]?) ↔
      P false (some x) ∨ ∃ i, P (isScanOperand rest i) rest[i]? := by
  constructor
  · rintro ⟨i, hi⟩
    cases i with
    | zero => exact Or.inl (by simpa [isScanOperand] using hi)
    | succ i =>
      rw [isScanOperand_cons_of_ne rest hx, List.getElem?_cons_succ] at hi
      exact Or.inr ⟨i, hi⟩
  · rintro (h | ⟨i, hi⟩)
    · exact ⟨0, by simpa [isScanOperand] using h⟩
    · refine ⟨i + 1, ?_⟩
      rw [isScanOperand_cons_of_ne rest hx, List.getElem?_cons_succ]
      exact hi

/-- Positions of `-scan :: y :: rest`: the flag, its operand `y`, and the
positions of `rest`, with their kind unchanged. -/
theorem exists_pos_scan_cons (P : Bool → Option String → Prop) (y : String)
    (rest : List String) :
    (∃ i, P (isScanOperand ("-scan" :: y :: rest) i) ("-scan" :: y :: rest)[i]?) ↔
      P false (some "-scan") ∨ P true (some y) ∨
        ∃ i, P (isScanOperand rest i) rest[i]? := by
  constructor
  · rintro ⟨i, hi⟩
    match i, hi with
    | 0, hi => exact Or.inl (by simpa [isScanOperand] using hi)
    | 1, hi =>
      rw [isScanOperand_scan_one] at hi
      exact Or.inr (Or.inl (by simpa using hi))
    | i + 2, hi =>
      rw [isScanOperand_scan_cons] at hi
      exact Or.inr (Or.inr ⟨i, by simpa using hi⟩)
  · rintro (h | h | ⟨i, hi⟩)
    · exact ⟨0, by simpa [isScanOperand] using h⟩
    · refine ⟨1, ?_⟩
      rw [isScanOperand_scan_one]
      simpa using h
    · refine ⟨i + 2, ?_⟩
      rw [isScanOperand_scan_cons]
      simpa using hi

/-- Positions of the one-element list `-scan`: the flag, and nothing after
it. -/
theorem exists_pos_scan_last (P : Bool → Option String → Prop)
    (hnone : ∀ b, ¬ P b none) :
    (∃ i, P (isScanOperand ["-scan"] i) ["-scan"][i]?) ↔ P false (some "-scan") := by
  constructor
  · rintro ⟨i, hi⟩
    cases i with
    | zero => simpa [isScanOperand] using hi
    | succ i => exact absurd hi (by simpa using hnone _)
  · intro h
    exact ⟨0, by simpa [isScanOperand] using h⟩

theorem exists_pos_nil (P : Bool → Option String → Prop)
    (hnone : ∀ b, ¬ P b none) :
    ¬ ∃ i, P (isScanOperand [] i) ([] : List String)[i]? := by
  rintro ⟨i, hi⟩
  exact hnone _ (by simpa using hi)

theorem mem_scanOperands (args : List String) (x : String) :
    x ∈ scanOperands args ↔ ∃ i, isScanOperand args i = true ∧ args[i]? = some x := by
  unfold scanOperands
  simp only [List.mem_filterMap, List.mem_range]
  constructor
  · rintro ⟨i, _, hi⟩
    by_cases h : isScanOperand args i = true
    · rw [if_pos h] at hi
      exact ⟨i, h, hi⟩
    · rw [if_neg h] at hi
      exact absurd hi (by simp)
  · rintro ⟨i, h, hi⟩
    refine ⟨i, ?_, ?_⟩
    · by_contra hlt
      rw [List.getElem?_eq_none (Nat.le_of_not_lt hlt)] at hi
      exact absurd hi (by simp)
    · rw [if_pos h]; exact hi

/-- The loop of `ParseArgs` touches `m_needsScanMethodNames` only by
inserting the operands of `-scan`. -/
theorem parseLoop_needs (args : List String) (a : Action) (x : String) :
    x ∈ (parseLoop args a).m_needsScanMethodNames ↔
      x ∈ a.m_needsScanMethodNames ∨
        ∃ i, isScanOperand args i = true ∧ args[i]? = some x := by
  induction args, a using parseLoop.induct with
  | case1 a =>
    have := exists_pos_nil (fun b o => b = true ∧ o = some x) (by simp)
    simp only [parseLoop]
    tauto
  | case2 a =>
    rw [parseLoop_scan_last, exists_pos_scan_last (fun b o => b = true ∧ o = some x) (by simp)]
    simp
  | case3 a y rest ih =>
    rw [parseLoop_scan, ih, exists_pos_scan_cons (fun b o => b = true ∧ o = some x)]
    simp only [Finset.mem_insert, Option.some.injEq, true_and]
    constructor
    · rintro ((h | h) | h)
      · exact Or.inr (Or.inr (Or.inl h.symm))
      · exact Or.inl h
      · exact Or.inr (Or.inr (Or.inr h))
    · rintro (h | h | h | h)
      · exact Or.inl (Or.inr h)
      · exact absurd h.1 (by simp)
      · exact Or.inl (Or.inl h.symm)
      · exact Or.inr h
  | case4 rest a hne ih =>
    rw [parseLoop_v, ih, exists_pos_cons_of_ne (fun b o => b = true ∧ o = some x) rest hne]
    simp
  | case5 y rest a h1 h2 ih =>
    rw [parseLoop_dir rest a h1 h2, ih,
      exists_pos_cons_of_ne (fun b o => b = true ∧ o = some x) rest h1]
    simp

/-- The loop of `ParseArgs` sets `m_verbose` at a `-v` that is no operand,
and nowhere else. -/
theorem parseLoop_verbose (args : List String) (a : Action) :
    (parseLoop args a).m_verbose = true ↔
      a.m_verbose = true ∨
        ∃ i, isScanOperand args i = false ∧ args[i]? = some "-v" := by
  induction args, a using parseLoop.induct with
  | case1 a =>
    have := exists_pos_nil (fun b o => b = false ∧ o = some "-v") (by simp)
    simp only [parseLoop]
    tauto
  | case2 a =>
    rw [parseLoop_scan_last, exists_pos_scan_last (fun b o => b = false ∧ o = some "-v") (by simp)]
    simp
  | case3 a y rest ih =>
    rw [parseLoop_scan, ih, exists_pos_scan_cons (fun b o => b = false ∧ o = some "-v")]
    simp
  | case4 rest a hne ih =>
    rw [parseLoop_v, ih, exists_pos_cons_of_ne (fun b o => b = false ∧ o = some "-v") rest hne]
    simp
  | case5 y rest a h1 h2 ih =>
    rw [parseLoop_dir rest a h1 h2, ih,
      exists_pos_cons_of_ne (fun b o => b = false ∧ o = some "-v") rest h1]
    simp [h2]

/-- The loop of `ParseArgs` leaves the four other sets alone. -/
theorem parseLoop_other_sets (args : List String) (a : Action) :
    (parseLoop args a).m_gcContainerNames = a.m_gcContainerNames ∧
    (parseLoop args a).m_hasScanMethodNames = a.m_hasScanMethodNames ∧
    (parseLoop args a).m_ignoredNames = a.m_ignoredNames ∧
    (parseLoop args a).m_badContainerNames = a.m_badContainerNames := by
  induction args, a using parseLoop.induct with
  | case1 a => simp [parseLoop]
  | case2 a => simp [parseLoop]
  | case3 a y rest ih => rw [parseLoop_scan]; exact ih
  | case4 rest a hne ih => rw [parseLoop_v]; exact ih
  | case5 y rest a h1 h2 ih => rw [parseLoop_dir rest a h1 h2]; exact ih

theorem isDirArg_cons_of_ne {x : String} (rest : List String)
    (hx : x ≠ "-scan") (i : Nat) :
    isDirArg (x :: rest) (i + 1) = isDirArg rest i := by
  simp only [isDirArg, List.getElem?_cons_succ, isScanOperand_cons_of_ne rest hx]

theorem isDirArg_scan_cons (y : String) (rest : List String) (i : Nat) :
    isDirArg ("-scan" :: y :: rest) (i + 2) = isDirArg rest i := by
  simp only [isDirArg, List.getElem?_cons_succ, isScanOperand_scan_cons]

theorem isDirArg_scan_zero (rest : List String) :
    isDirArg ("-scan" :: rest) 0 = false := by
  simp [isDirArg]

theorem isDirArg_scan_one (rest : List String) :
    isDirArg ("-scan" :: rest) 1 = false := by
  cases rest <;> simp [isDirArg, isScanOperand]

theorem isDirArg_v_zero (rest : List String) :
    isDirArg ("-v" :: rest) 0 = false := by
  simp [isDirArg]

theorem isDirArg_dir_zero {x : String} (rest : List String)
    (h1 : x ≠ "-scan") (h2 : x ≠ "-v") :
    isDirArg (x :: rest) 0 = true := by
  simp [isDirArg, isScanOperand, h1, h2]

theorem IsLastDirArg.skip_one {x : String} {rest : List String} {dflt o : String}
    (hx : x ≠ "-scan") (h0 : isDirArg (x :: rest) 0 = false)
    (h : IsLastDirArg rest dflt o) : IsLastDirArg (x :: rest) dflt o := by
  rcases h with ⟨i, hi, hget, hlast⟩ | ⟨hno, ho⟩
  · refine Or.inl ⟨i + 1, ?_, ?_, ?_⟩
    · rw [isDirArg_cons_of_ne rest hx]; exact hi
    · simpa using hget
    · intro j hj
      obtain ⟨k, rfl⟩ : ∃ k, j = k + 1 := ⟨j - 1, by omega⟩
      rw [isDirArg_cons_of_ne rest hx]
      exact hlast k (by omega)
  · refine Or.inr ⟨?_, ho⟩
    intro i
    cases i with
    | zero => exact h0
    | succ i => rw [isDirArg_cons_of_ne rest hx]; exact hno i

theorem IsLastDirArg.skip_two {y : String} {rest : List String} {dflt o : String}
    (h : IsLastDirArg rest dflt o) : IsLastDirArg ("-scan" :: y :: rest) dflt o := by
  rcases h with ⟨i, hi, hget, hlast⟩ | ⟨hno, ho⟩
  · refine Or.inl ⟨i + 2, ?_, ?_, ?_⟩
    · rw [isDirArg_scan_cons]; exact hi
    · simpa using hget
    · intro j hj
      obtain ⟨k, rfl⟩ : ∃ k, j = k + 2 := ⟨j - 2, by omega⟩
      rw [isDirArg_scan_cons]
      exact hlast k (by omega)
  · refine Or.inr ⟨?_, ho⟩
    intro i
    match i with
    | 0 => exact isDirArg_scan_zero _
    | 1 => exact isDirArg_scan_one _
    | i + 2 => rw [isDirArg_scan_cons]; exact hno i

theorem IsLastDirArg.dir {x : String} {rest : List String} {dflt o : String}
    (h1 : x ≠ "-scan") (h2 : x ≠ "-v")
    (h : IsLastDirArg rest x o) : IsLastDirArg (x :: rest) dflt o := by
  rcases h with ⟨i, hi, hget, hlast⟩ | ⟨hno, ho⟩
  · refine Or.inl ⟨i + 1, ?_, ?_, ?_⟩
    · rw [isDirArg_cons_of_ne rest h1]; exact hi
    · simpa using hget
    · intro j hj
      obtain ⟨k, rfl⟩ : ∃ k, j = k + 1 := ⟨j - 1, by omega⟩
      rw [isDirArg_cons_of_ne rest h1]
      exact hlast k (by omega)
  · refine Or.inl ⟨0, isDirArg_dir_zero rest h1 h2, by simp [ho], ?_⟩
    intro j hj
    obtain ⟨k, rfl⟩ : ∃ k, j = k + 1 := ⟨j - 1, by omega⟩
    rw [isDirArg_cons_of_ne rest h1]
    exact hno k

/-- The loop of `ParseArgs` leaves in `m_outdir` the last `dirname`
argument, or the old value when there is none. -/
theorem parseLoop_outdir (args : List String) (a : Action) :
    IsLastDirArg args a.m_outdir (parseLoop args a).m_outdir := by
  induction args, a using parseLoop.induct with
  | case1 a => exact Or.inr ⟨fun i => by simp [isDirArg], by simp [parseLoop]⟩
  | case2 a =>
    rw [parseLoop_scan_last]
    refine Or.inr ⟨fun i => ?_, rfl⟩
    match i with
    | 0 => exact isDirArg_scan_zero _
    | i + 1 => simp [isDirArg]
  | case3 a y rest ih =>
    rw [parseLoop_scan]
    exact ih.skip_two
  | case4 rest a hne ih =>
    rw [parseLoop_v]
    exact ih.skip_one hne (isDirArg_v_zero rest)
  | case5 y rest a h1 h2 ih =>
    rw [parseLoop_dir rest a h1 h2]
    exact ih.dir h1 h2

/-! ## Lemmas on the classification passes -/

theorem propagateStep_subset_range (ct : Finset Nat → Finset Nat) (g : TypeGraph)
    (c : ConsumerArgs) (s : Finset Nat) (hs : s ⊆ Finset.range g.length) :
    propagateStep ct g c s ⊆ Finset.range g.length := by
  intro i hi
  simp only [propagateStep, Finset.mem_union, Finset.mem_filter, Finset.mem_inter] at hi
  rcases hi with (h | h) | h
  · exact hs h
  · exact h.1
  · exact h.2

theorem resolveNames_subset_range (g : TypeGraph) (names : Finset String) :
    resolveNames g names ⊆ Finset.range g.length :=
  Finset.filter_subset _ _

/-- What holds of the start and is kept by every round holds of the result
of the loop. -/
theorem propagateLoop_invariant (step : Finset Nat → Finset Nat)
    (Inv : Finset Nat → Prop) (hstep : ∀ s, Inv s → Inv (step s))
    (fuel : Nat) (s : Finset Nat) (h : Inv s) : Inv (propagateLoop step fuel s) := by
  induction fuel generalizing s with
  | zero => exact h
  | succ fuel ih =>
    rw [propagateLoop]
    split
    · exact h
    · exact ih (step s) (hstep s h)

theorem propagate_invariant (ct : Finset Nat → Finset Nat) (g : TypeGraph)
    (c : ConsumerArgs) (Inv : Finset Nat → Prop)
    (hseed : Inv (resolveNames g c.needsScanMethodNames))
    (hstep : ∀ s, Inv s → Inv (propagateStep ct g c s)) :
    Inv (propagate ct g c) :=
  propagateLoop_invariant _ Inv hstep _ _ hseed

theorem propagate_subset_range (ct : Finset Nat → Finset Nat) (g : TypeGraph)
    (c : ConsumerArgs) : propagate ct g c ⊆ Finset.range g.length :=
  propagate_invariant ct g c (fun s => s ⊆ Finset.range g.length)
    (resolveNames_subset_range g _) (propagateStep_subset_range ct g c)

theorem isDirArg_nil (i : Nat) : isDirArg [] i = false := by
  simp [isDirArg]

theorem isDirArg_v_single (i : Nat) : isDirArg ["-v"] i = false := by
  cases i with
  | zero => exact isDirArg_v_zero []
  | succ i => simp [isDirArg]

theorem scanOperands_toFinset (args : List String) (a : Action) :
    (parseLoop args a).m_needsScanMethodNames =
      a.m_needsScanMethodNames ∪ (scanOperands args).toFinset := by
  ext x
  rw [parseLoop_needs, Finset.mem_union, List.mem_toFinset, mem_scanOperands]

theorem scanOperands_eq_nil_of_not_mem (args : List String)
    (h : "-scan" ∉ args) : scanOperands args = [] := by
  rw [List.eq_nil_iff_forall_not_mem]
  intro x hx
  obtain ⟨i, hi, _⟩ := (mem_scanOperands args x).mp hx
  cases i with
  | zero => simp [isScanOperand] at hi
  | succ i =>
    simp only [isScanOperand, Bool.and_eq_true, beq_iff_eq] at hi
    exact h (List.getElem?_mem hi.1)

theorem needs_of_consumerArgsOf (args : List String) :
    (consumerArgsOf args).needsScanMethodNames =
      needsScanSeeds.toFinset ∪ (scanOperands args).toFinset := by
  simp only [consumerArgsOf, CreateASTConsumer, CreateASTConsumer.action, ParseArgs,
    insertAll_eq, scanOperands_toFinset, Action.init, Finset.empty_union]
  exact Finset.union_comm _ _

theorem needsScanMethodNames_of_CreateASTConsumer (a : Action) :
    (CreateASTConsumer a).2.needsScanMethodNames =
      a.m_needsScanMethodNames ∪ needsScanSeeds.toFinset := by
  simp only [CreateASTConsumer, CreateASTConsumer.action, insertAll_eq]

theorem hasScanMethodNames_of_CreateASTConsumer (a : Action) :
    (CreateASTConsumer a).2.hasScanMethodNames =
      (CreateASTConsumer a).2.needsScanMethodNames ∪ hasScanMethodSeeds.toFinset := by
  simp only [CreateASTConsumer, CreateASTConsumer.action, insertAll_eq]

theorem gc_bad_of_consumerArgsOf (args : List String) :
    (consumerArgsOf args).gcContainerNames = gcContainerSeeds.toFinset ∧
    (consumerArgsOf args).badContainerNames = badContainerSeeds.toFinset := by
  have h := parseLoop_other_sets args Action.init
  simp only [consumerArgsOf, CreateASTConsumer, CreateASTConsumer.action, ParseArgs,
    insertAll_eq, h.1, h.2.2.2]
  simp [Action.init]

/-- C1: `ParseArgs` adds to the NeedsScan names exactly the operands of the
`-scan` options: the set afterwards is the set before together with the
arguments at the operand positions (a position is an operand position when
the argument before it is `-scan` and is not itself an operand; a trailing
`-scan` has no operand).  The four other name sets are unchanged. -/
theorem C1_ParseArgs_adds_scan_operands (args : List String) (a : Action) :
    (ParseArgs args a).2.m_needsScanMethodNames =
        a.m_needsScanMethodNames ∪ (scanOperands args).toFinset ∧
    (∀ x, x ∈ (ParseArgs args a).2.m_needsScanMethodNames ↔
        x ∈ a.m_needsScanMethodNames ∨
          ∃ i, isScanOperand args i = true ∧ args[i]? = some x) ∧
    (ParseArgs args a).2.m_gcContainerNames = a.m_gcContainerNames ∧
    (ParseArgs args a).2.m_hasScanMethodNames = a.m_hasScanMethodNames ∧
    (ParseArgs args a).2.m_ignoredNames = a.m_ignoredNames ∧
    (ParseArgs args a).2.m_badContainerNames = a.m_badContainerNames :=
  ⟨scanOperands_toFinset args a, parseLoop_needs args a, parseLoop_other_sets args a⟩

/-- C2, as stated, fails: neither the empty argument list nor the list `-v`
holds a `dirname` argument, and `ParseArgs` returns `true` on both. -/
theorem C2_counterexample_no_outdir_accepted :
    (∀ i, isDirArg [] i = false) ∧ (ParseArgs [] Action.init).1 = true ∧
    (∀ i, isDirArg ["-v"] i = false) ∧ (ParseArgs ["-v"] Action.init).1 = true :=
  ⟨isDirArg_nil, rfl, isDirArg_v_single, rfl⟩

/-- C2, amended: `ParseArgs` accepts every argument list (it returns `true`),
and a list without a `dirname` argument leaves the output directory as it
was. -/
theorem C2_ParseArgs_accepts_every_list (args : List String) (a : Action) :
    (ParseArgs args a).1 = true ∧
    ((∀ i, isDirArg args i = false) →
      (ParseArgs args a).2.m_outdir = a.m_outdir) := by
  refine ⟨rfl, fun hno => ?_⟩
  rcases parseLoop_outdir args a with ⟨i, hi, _⟩ | ⟨_, ho⟩
  · rw [hno i] at hi
    exact absurd hi (by simp)
  · exact ho

/-- C2, amended, on the list `-v` and a fresh action: the list is accepted
and the output directory stays empty. -/
theorem C2_ParseArgs_accepts_every_list_witness :
    (∀ i, isDirArg ["-v"] i = false) ∧
    (ParseArgs ["-v"] Action.init).1 = true ∧
    (ParseArgs ["-v"] Action.init).2.m_outdir = "" :=
  ⟨isDirArg_v_single,
    (C2_ParseArgs_accepts_every_list ["-v"] Action.init).1,
    (C2_ParseArgs_accepts_every_list ["-v"] Action.init).2 isDirArg_v_single⟩

/-- C3: after `ParseArgs` the verbose flag is set exactly when it was set
before or some argument that is not the operand of a `-scan` is `-v`; from a
fresh action it is set exactly when there is such a `-v`. -/
theorem C3_ParseArgs_verbose (args : List String) (a : Action) :
    ((ParseArgs args a).2.m_verbose = true ↔
        a.m_verbose = true ∨
          ∃ i, isScanOperand args i = false ∧ args[i]? = some "-v") ∧
    ((ParseArgs args Action.init).2.m_verbose = true ↔
        ∃ i, isScanOperand args i = false ∧ args[i]? = some "-v") := by
  refine ⟨parseLoop_verbose args a, ?_⟩
  have h := parseLoop_verbose args Action.init
  simpa [Action.init] using h

/-- C4: whatever the arguments and the action `ParseArgs` starts from, the
HasScanMethod names handed to the consumer contain the NeedsScan names
handed to it, and with them the built-in seeds and the `-scan` operands. -/
theorem C4_hasScanMethod_superset_of_needsScan (args : List String) (a : Action) :
    (CreateASTConsumer (ParseArgs args a).2).2.needsScanMethodNames ⊆
        (CreateASTConsumer (ParseArgs args a).2).2.hasScanMethodNames ∧
    needsScanSeeds.toFinset ⊆
        (CreateASTConsumer (ParseArgs args a).2).2.hasScanMethodNames ∧
    (scanOperands args).toFinset ⊆
        (CreateASTConsumer (ParseArgs args a).2).2.hasScanMethodNames := by
  have hhas := hasScanMethodNames_of_CreateASTConsumer (ParseArgs args a).2
  have hneeds := needsScanMethodNames_of_CreateASTConsumer (ParseArgs args a).2
  have hsub : (CreateASTConsumer (ParseArgs args a).2).2.needsScanMethodNames ⊆
      (CreateASTConsumer (ParseArgs args a).2).2.hasScanMethodNames := by
    rw [hhas]
    exact Finset.subset_union_left
  refine ⟨hsub, ?_, ?_⟩
  · refine Finset.Subset.trans ?_ hsub
    rw [hneeds]
    exact Finset.subset_union_right
  · refine Finset.Subset.trans ?_ hsub
    rw [hneeds]
    refine Finset.Subset.trans ?_ Finset.subset_union_left
    show _ ⊆ (parseLoop args a).m_needsScanMethodNames
    rw [scanOperands_toFinset]
    exact Finset.subset_union_right

/-- C5: from a fresh action, the NeedsScan names handed to the consumer are
the thirteen built-in seeds together with the `-scan` operands; when no
argument is `-scan` they are the thirteen seeds. -/
theorem C5_needsScan_names (args : List String) :
    (consumerArgsOf args).needsScanMethodNames =
        ({"HPHP::ObjectData", "HPHP::ResourceData", "HPHP::ArrayData",
          "HPHP::StringData", "HPHP::TypedValue", "HPHP::Cell", "HPHP::RefData",
          "HPHP::Array", "HPHP::String", "HPHP::Variant", "HPHP::Object",
          "HPHP::Resource", "HPHP::RequestEventHandler"} : Finset String) ∪
          (scanOperands args).toFinset ∧
    ("-scan" ∉ args →
      (consumerArgsOf args).needsScanMethodNames =
        ({"HPHP::ObjectData", "HPHP::ResourceData", "HPHP::ArrayData",
          "HPHP::StringData", "HPHP::TypedValue", "HPHP::Cell", "HPHP::RefData",
          "HPHP::Array", "HPHP::String", "HPHP::Variant", "HPHP::Object",
          "HPHP::Resource", "HPHP::RequestEventHandler"} : Finset String)) ∧
    (needsScanSeeds.toFinset).card = 13 := by
  have hseeds : needsScanSeeds.toFinset =
      ({"HPHP::ObjectData", "HPHP::ResourceData", "HPHP::ArrayData",
        "HPHP::StringData", "HPHP::TypedValue", "HPHP::Cell", "HPHP::RefData",
        "HPHP::Array", "HPHP::String", "HPHP::Variant", "HPHP::Object",
        "HPHP::Resource", "HPHP::RequestEventHandler"} : Finset String) := by
    decide
  refine ⟨?_, fun h => ?_, by decide⟩
  · rw [needs_of_consumerArgsOf, hseeds]
  · rw [needs_of_consumerArgsOf, hseeds, scanOperands_eq_nil_of_not_mem args h]
    simp

/-- C5 on the arguments `-v out`: no `-scan`, and the consumer receives the
thirteen seeds. -/
theorem C5_needsScan_names_witness :
    "-scan" ∉ ["-v", "out"] ∧
    (consumerArgsOf ["-v", "out"]).needsScanMethodNames =
      ({"HPHP::ObjectData", "HPHP::ResourceData", "HPHP::ArrayData",
        "HPHP::StringData", "HPHP::TypedValue", "HPHP::Cell", "HPHP::RefData",
        "HPHP::Array", "HPHP::String", "HPHP::Variant", "HPHP::Object",
        "HPHP::Resource", "HPHP::RequestEventHandler"} : Finset String) :=
  ⟨by decide, (C5_needsScan_names ["-v", "out"]).2.1 (by decide)⟩

/-- C8: after `ParseArgs` the output directory is the last argument that is
neither `-v`, nor `-scan`, nor the operand of a `-scan`; when the list has no
such argument the output directory is what it was before. -/
theorem C8_ParseArgs_outdir_last_wins (args : List String) (a : Action) :
    (∃ i, isDirArg args i = true ∧
        args[i]? = some (ParseArgs args a).2.m_outdir ∧
        ∀ j, i < j → isDirArg args j = false) ∨
    ((∀ i, isDirArg args i = false) ∧
        (ParseArgs args a).2.m_outdir = a.m_outdir) :=
  parseLoop_outdir args a

/-- C9: whatever the arguments, the GcContainer and BadContainer names
handed to the consumer have exactly seven names in common. -/
theorem C9_gcContainer_badContainer_overlap (args : List String) :
    (consumerArgsOf args).gcContainerNames ∩ (consumerArgsOf args).badContainerNames =
      ({"std::flat_map", "std::flat_multimap", "std::flat_set",
        "std::flat_multiset", "std::hash_map", "std::hash_multimap",
        "std::hash_set"} : Finset String) ∧
    ((consumerArgsOf args).gcContainerNames ∩
      (consumerArgsOf args).badContainerNames).card = 7 := by
  rw [(gc_bad_of_consumerArgsOf args).1, (gc_bad_of_consumerArgsOf args).2]
  exact ⟨by decide, by decide⟩

/-- C10: `HandleTranslationUnit` makes four calls and no other: the
name-resolution traversal, then the generator's `preVisit`, its traversal
and `emitScanMethods`, each once and in that order; each call works on the
state the call before it has left. -/
theorem C10_HandleTranslationUnit_pass_order {σ τ : Type} (p : PassBodies σ τ)
    (tu : τ) (r : Run σ) :
    (HandleTranslationUnit p tu r).calls =
      r.calls ++ [PassCall.resolveTraverseDecl, PassCall.generatorPreVisit,
        PassCall.generatorTraverseDecl, PassCall.generatorEmitScanMethods] ∧
    (HandleTranslationUnit p tu r).state =
      p.emitScanMethods (p.generatorTraverseDecl tu
        (p.preVisit (p.resolveTraverseDecl tu r.state))) := by
  constructor
  · simp [HandleTranslationUnit, Run.call]
  · rfl


/-! ## Lemmas on the white lists -/

theorem insertAll_insertAll (names : List String) (s : Finset String) :
    insertAll names (insertAll names s) = insertAll names s := by
  rw [insertAll_eq, insertAll_eq, Finset.union_assoc, Finset.union_self]

/-- A second run of the body of `CreateASTConsumer` changes nothing. -/
theorem CreateASTConsumer_action_idem (a : Action) :
    CreateASTConsumer.action (CreateASTConsumer.action a) = CreateASTConsumer.action a := by
  simp only [CreateASTConsumer.action, insertAll_insertAll]

theorem ignored_of_consumerArgsOf (args : List String) :
    (consumerArgsOf args).ignoredNames = ignoredSeeds.toFinset := by
  have h := parseLoop_other_sets args Action.init
  simp only [consumerArgsOf, CreateASTConsumer, CreateASTConsumer.action, ParseArgs,
    insertAll_eq, h.2.2.1]
  simp [Action.init]

theorem has_of_consumerArgsOf (args : List String) (h : "-scan" ∉ args) :
    (consumerArgsOf args).hasScanMethodNames =
      needsScanSeeds.toFinset ∪ hasScanMethodSeeds.toFinset := by
  have h1 : (consumerArgsOf args).hasScanMethodNames =
      (consumerArgsOf args).needsScanMethodNames ∪ hasScanMethodSeeds.toFinset :=
    hasScanMethodNames_of_CreateASTConsumer _
  rw [h1, needs_of_consumerArgsOf, scanOperands_eq_nil_of_not_mem args h]
  simp

set_option maxRecDepth 100000 in
/-- Every pair of an Ignored seed and a NeedsScan or HasScanMethod seed is a
pair of different names, unless the Ignored seed is `HPHP::Fault`.  Names of
different length are told apart by their length. -/
theorem ignoredSeeds_pairs_check :
    ignoredSeeds.all (fun x =>
      (needsScanSeeds ++ hasScanMethodSeeds).all (fun y =>
        x.length != y.length || x != y || x == "HPHP::Fault")) = true := by
  decide!

set_option maxRecDepth 100000 in
theorem fault_mem_ignoredSeeds : "HPHP::Fault" ∈ ignoredSeeds := by
  decide!

set_option maxRecDepth 100000 in
theorem fault_mem_hasScanMethodSeeds : "HPHP::Fault" ∈ hasScanMethodSeeds := by
  decide!

/-- The names that `CreateASTConsumer` inserts both into `m_ignoredNames` and
into `m_hasScanMethodNames` (the NeedsScan seeds included). -/
theorem ignoredSeeds_inter_hasScanMethodSeeds :
    ignoredSeeds.toFinset ∩ (needsScanSeeds.toFinset ∪ hasScanMethodSeeds.toFinset) =
      ({"HPHP::Fault"} : Finset String) := by
  ext x
  simp only [Finset.mem_inter, Finset.mem_union, List.mem_toFinset, Finset.mem_singleton]
  constructor
  · rintro ⟨hx, hy⟩
    have hcheck := ignoredSeeds_pairs_check
    rw [List.all_eq_true] at hcheck
    have hrow := hcheck x hx
    rw [List.all_eq_true] at hrow
    have hcell := hrow x (List.mem_append.mpr hy)
    simpa using hcell
  · rintro rfl
    exact ⟨fault_mem_ignoredSeeds, Or.inr fault_mem_hasScanMethodSeeds⟩

theorem fault_not_mem_needsScanSeeds : "HPHP::Fault" ∉ needsScanSeeds := by
  decide

/-! ## The properties of the white lists -/

/-- C11: for the action left by `ParseArgs`, a second call of
`CreateASTConsumer` leaves each of the five name sets as the first call left
it, and hands the second consumer the arguments the first one received. -/
theorem C11_CreateASTConsumer_idempotent (args : List String) (a : Action) :
    (CreateASTConsumer (CreateASTConsumer (ParseArgs args a).2).1).1.m_needsScanMethodNames =
      (CreateASTConsumer (ParseArgs args a).2).1.m_needsScanMethodNames ∧
    (CreateASTConsumer (CreateASTConsumer (ParseArgs args a).2).1).1.m_gcContainerNames =
      (CreateASTConsumer (ParseArgs args a).2).1.m_gcContainerNames ∧
    (CreateASTConsumer (CreateASTConsumer (ParseArgs args a).2).1).1.m_hasScanMethodNames =
      (CreateASTConsumer (ParseArgs args a).2).1.m_hasScanMethodNames ∧
    (CreateASTConsumer (CreateASTConsumer (ParseArgs args a).2).1).1.m_ignoredNames =
      (CreateASTConsumer (ParseArgs args a).2).1.m_ignoredNames ∧
    (CreateASTConsumer (CreateASTConsumer (ParseArgs args a).2).1).1.m_badContainerNames =
      (CreateASTConsumer (ParseArgs args a).2).1.m_badContainerNames ∧
    (CreateASTConsumer (CreateASTConsumer (ParseArgs args a).2).1).2 =
      (CreateASTConsumer (ParseArgs args a).2).2 := by
  have h := CreateASTConsumer_action_idem (ParseArgs args a).2
  simp only [CreateASTConsumer, h, and_self]

/-- C13: with no `-scan` among the arguments, the Ignored and HasScanMethod
names handed to the consumer have `HPHP::Fault` in common and nothing else,
and none of the thirteen NeedsScan seeds is an Ignored name. -/
theorem C13_ignored_hasScanMethod_overlap (args : List String)
    (h : "-scan" ∉ args) :
    (consumerArgsOf args).ignoredNames ∩ (consumerArgsOf args).hasScanMethodNames =
      ({"HPHP::Fault"} : Finset String) ∧
    ∀ n ∈ needsScanSeeds, n ∉ (consumerArgsOf args).ignoredNames := by
  rw [ignored_of_consumerArgsOf, has_of_consumerArgsOf args h]
  refine ⟨ignoredSeeds_inter_hasScanMethodSeeds, fun n hn hign => ?_⟩
  have hmem : n ∈ ignoredSeeds.toFinset ∩
      (needsScanSeeds.toFinset ∪ hasScanMethodSeeds.toFinset) :=
    Finset.mem_inter.mpr
      ⟨hign, Finset.mem_union_left _ (List.mem_toFinset.mpr hn)⟩
  rw [ignoredSeeds_inter_hasScanMethodSeeds, Finset.mem_singleton] at hmem
  exact fault_not_mem_needsScanSeeds (hmem ▸ hn)

/-- C13 on the empty argument list. -/
theorem C13_ignored_hasScanMethod_overlap_witness :
    "-scan" ∉ ([] : List String) ∧
    (consumerArgsOf []).ignoredNames ∩ (consumerArgsOf []).hasScanMethodNames =
      ({"HPHP::Fault"} : Finset String) :=
  ⟨by decide, (C13_ignored_hasScanMethod_overlap [] (by decide)).1⟩

/-! ## The properties of the classification passes -/

namespace php7

theorem Unit.classesOk_new (this : UnitPtr) : (Unit.new this).ClassesOk this := by
  intro i c h
  simp [Unit.new] at h

theorem Unit.classesOk_makeFunction {this : UnitPtr} {u : Unit}
    (h : u.ClassesOk this) : (Unit.makeFunction this u).2.ClassesOk this :=
  h

theorem Unit.classesOk_makeClass {this : UnitPtr} {u : Unit}
    (h : u.ClassesOk this) : (Unit.makeClass this u).2.ClassesOk this := by
  intro i c hi
  simp only [Unit.makeClass] at hi
  by_cases hlt : i < u.classes.length
  · rw [List.getElem?_append_left hlt] at hi
    exact h i c hi
  · have hge : u.classes.length ≤ i := Nat.le_of_not_lt hlt
    rw [List.getElem?_append_right hge] at hi
    have hzero : i - u.classes.length = 0 := by
      by_contra hne
      obtain ⟨k, hk⟩ : ∃ k, i - u.classes.length = k + 1 :=
        ⟨i - u.classes.length - 1, by omega⟩
      rw [hk] at hi
      simp at hi
    rw [hzero] at hi
    have hc : c = Class.new this u.nextClassId := by
      simpa using hi.symm
    have hi' : i = u.classes.length := by omega
    subst hc
    simp [Class.new, Unit.nextClassId, hi']

theorem Unit.classesOk_run (this : UnitPtr) (calls : List UnitCall) (u : Unit)
    (h : u.ClassesOk this) : (Unit.run this calls u).ClassesOk this := by
  induction calls generalizing u with
  | nil => exact h
  | cons call rest ih =>
    cases call with
    | makeFunction => exact ih _ (Unit.classesOk_makeFunction h)
    | makeClass => exact ih _ (Unit.classesOk_makeClass h)

theorem Unit.length_classes_run (this : UnitPtr) (calls : List UnitCall) (u : Unit) :
    (Unit.run this calls u).classes.length =
      u.classes.length + calls.count UnitCall.makeClass := by
  induction calls generalizing u with
  | nil => simp [Unit.run]
  | cons call rest ih =>
    cases call with
    | makeFunction =>
      rw [Unit.run, ih, List.count_cons_of_ne (by decide)]
      simp [Unit.makeFunction]
    | makeClass =>
      rw [Unit.run, ih, List.count_cons_self]
      simp [Unit.makeClass]
      omega

theorem Unit.length_classes_run_new (this : UnitPtr) (calls : List UnitCall) :
    (Unit.run this calls (Unit.new this)).classes.length =
      calls.count UnitCall.makeClass := by
  rw [Unit.length_classes_run]
  simp [Unit.new]

/-- C12, as stated, fails: after `2^32` calls of `makeClass` on a fresh unit
there are `2^32` classes and `nextClassId()` is `0`; the class that one more
call stores at position `2^32` has index `0`. -/
theorem C12_counterexample_index_wraps :
    (Unit.run 0 (List.replicate 4294967296 UnitCall.makeClass) (Unit.new 0)).classes.length
      = 4294967296 ∧
    (Unit.run 0 (List.replicate 4294967296 UnitCall.makeClass) (Unit.new 0)).nextClassId
      = 0 ∧
    ∃ c, (Unit.run 0 (List.replicate 4294967297 UnitCall.makeClass)
            (Unit.new 0)).classes[4294967296]? = some c ∧
      c.index = 0 ∧ c.index ≠ 4294967296 := by
  have hlen : ∀ n, (Unit.run 0 (List.replicate n UnitCall.makeClass)
      (Unit.new 0)).classes.length = n := by
    intro n
    rw [Unit.length_classes_run_new, List.count_replicate_self]
  refine ⟨hlen _, ?_, ?_⟩
  · rw [Unit.nextClassId, hlen]
  · have hlt : 4294967296 < (Unit.run 0 (List.replicate 4294967297 UnitCall.makeClass)
        (Unit.new 0)).classes.length := by
      rw [hlen]
      exact Nat.lt_succ_self _
    refine ⟨_, List.getElem?_eq_getElem hlt, ?_⟩
    have hok := Unit.classesOk_run 0 (List.replicate 4294967297 UnitCall.makeClass)
      (Unit.new 0) (Unit.classesOk_new 0) 4294967296 _ (List.getElem?_eq_getElem hlt)
    rw [hok.1]
    exact ⟨by norm_num, by norm_num⟩

/-- C12, amended: in the unit reached from a fresh unit at address `this` by
any sequence of `makeClass` and `makeFunction` calls, the class at position
`i` has index `i` reduced modulo `2^32` and parent `this`, the length of
`classes` is the number of `makeClass` calls, and `nextClassId()` is that
number reduced modulo `2^32`; one more `makeFunction` leaves `nextClassId()`
as it is, one more `makeClass` increases it by one, modulo `2^32`.  When the
sequence has fewer than `2^32` calls of `makeClass`, the class at position
`i` has index `i` and `nextClassId()` is the number of classes created. -/
theorem C12_class_indices_positional (this : UnitPtr) (calls : List UnitCall) :
    (∀ (i : Nat) (c : Class), (Unit.run this calls (Unit.new this)).classes[i]? = some c →
      c.index = i % 4294967296 ∧ c.parent = this) ∧
    (Unit.run this calls (Unit.new this)).classes.length =
      calls.count UnitCall.makeClass ∧
    (Unit.run this calls (Unit.new this)).nextClassId =
      calls.count UnitCall.makeClass % 4294967296 ∧
    (Unit.run this (calls ++ [UnitCall.makeFunction]) (Unit.new this)).nextClassId =
      (Unit.run this calls (Unit.new this)).nextClassId ∧
    (Unit.run this (calls ++ [UnitCall.makeClass]) (Unit.new this)).nextClassId =
      ((Unit.run this calls (Unit.new this)).nextClassId + 1) % 4294967296 ∧
    (calls.count UnitCall.makeClass < 4294967296 →
      (∀ (i : Nat) (c : Class),
        (Unit.run this calls (Unit.new this)).classes[i]? = some c → c.index = i) ∧
      (Unit.run this calls (Unit.new this)).nextClassId =
        calls.count UnitCall.makeClass) := by
  have hlen := Unit.length_classes_run_new this calls
  have hok := Unit.classesOk_run this calls (Unit.new this) (Unit.classesOk_new this)
  refine ⟨hok, hlen, ?_, ?_, ?_, fun h => ⟨fun i c hi => ?_, ?_⟩⟩
  · rw [Unit.nextClassId, hlen]
  · simp only [Unit.nextClassId, Unit.length_classes_run_new, List.count_append]
    simp
  · simp only [Unit.nextClassId, Unit.length_classes_run_new, List.count_append]
    simp
  · have hlt : i < (Unit.run this calls (Unit.new this)).classes.length := by
      by_contra hge
      rw [List.getElem?_eq_none (Nat.le_of_not_lt hge)] at hi
      exact absurd hi (by simp)
    rw [(hok i c hi).1]
    exact Nat.mod_eq_of_lt (by omega)
  · rw [Unit.nextClassId, hlen]
    exact Nat.mod_eq_of_lt h

/-- C12, amended, on the calls `makeClass`, `makeFunction`, `makeClass` for the
unit at address `7`: indices `0` and `1`, parent `7`, and `nextClassId()` is
`2`. -/
theorem C12_class_indices_positional_witness :
    [UnitCall.makeClass, UnitCall.makeFunction, UnitCall.makeClass].count
        UnitCall.makeClass < 4294967296 ∧
    (Unit.run 7 [UnitCall.makeClass, UnitCall.makeFunction, UnitCall.makeClass]
        (Unit.new 7)).classes.map (fun c => (c.index, c.parent)) = [(0, 7), (1, 7)] ∧
    (Unit.run 7 [UnitCall.makeClass, UnitCall.makeFunction, UnitCall.makeClass]
        (Unit.new 7)).nextClassId =
      [UnitCall.makeClass, UnitCall.makeFunction, UnitCall.makeClass].count
        UnitCall.makeClass :=
  ⟨by decide, by decide,
    ((C12_class_indices_positional 7
      [UnitCall.makeClass, UnitCall.makeFunction, UnitCall.makeClass]).2.2.2.2.2
        (by decide)).2⟩

end php7

end HPHP
